import Mathlib

/-!
Verification of the TVBOXZ device-side playback engine against its
specification.  The definitions below are shallow embeddings of the
TypeScript/JavaScript source: JavaScript truthiness is made explicit via
`jsTruthyInt` / `jsTruthyStr`, missing JSON fields become `Option`, and the
React components' state updates become pure functions on explicit state.
-/

namespace TVBoxZ

/-- JavaScript truthiness of an optional number: `undefined`/`null` and `0`
are falsy, every other number is truthy. -/
def jsTruthyInt : Option Int → Bool
  | none => false
  | some d => d != 0

/-- JavaScript truthiness of an optional string: `undefined`/`null` and the
empty string are falsy. -/
def jsTruthyStr : Option String → Bool
  | none => false
  | some s => s != ""

/-- JavaScript `x || d` on an optional number `x`: the default is taken when
`x` is missing or `0` (both falsy). -/
def jsOrInt (x : Option Int) (d : Int) : Int :=
  match x with
  | none => d
  | some v => if v = 0 then d else v

/-- `PlaylistItem` as used by `src/components/MediaPlayer.tsx`.  The `type`
field is kept as a raw optional string because it is copied verbatim from the
server payload. -/
structure PlaylistItem where
  id : Int
  type : Option String
  url : String
  duration_seconds : Option Int
  order : Int
  active : Bool
  checksum : Option String
  deriving DecidableEq

/-- One raw item of the JSON manifest response body (`response.data.data`),
with every field optional, as JSON object access yields `undefined` for
absent keys. -/
structure ManifestItem where
  id : Option Int
  content_id : Option Int
  playlist_id : Option Int
  title : Option String
  type : Option String
  mime_type : Option String
  checksum : Option String
  duration_seconds : Option Int
  url : Option String
  file_path : Option String
  deriving DecidableEq

/-- One row of the SQL join in `backend/services/deviceService.js`
`getDeviceManifest` (playlists joined with content). -/
structure DbRow where
  playlist_id : Int
  content_id : Int
  order_index : Int
  playlist_duration : Option Int
  title : String
  type : String
  file_path : Option String
  mime_type : Option String
  checksum : Option String
  content_duration : Option Int
  deriving DecidableEq

/-- `getDeviceManifest` from `backend/services/deviceService.js`: maps each
joined row to a manifest item.  The content id is exposed under the key
`id`; no `content_id` key is ever emitted.  Images get
`playlist_duration || 10` as duration, videos get the content duration, and
the url is built from `file_path` only when that is truthy. -/
def serverManifest (baseUrl : String) (rows : List DbRow) : List ManifestItem :=
  rows.map (fun item =>
    { id := some item.content_id
      content_id := none
      playlist_id := some item.playlist_id
      title := some item.title
      type := some item.type
      mime_type := item.mime_type
      checksum := item.checksum
      duration_seconds :=
        if item.type = "image" then some (jsOrInt item.playlist_duration 10)
        else item.content_duration
      url :=
        if jsTruthyStr item.file_path then
          some (baseUrl ++ "/" ++ item.file_path.getD "")
        else none
      file_path := item.file_path })

/-- The normalization in `MediaPlayer.tsx` `loadPlaylist`: filter
`item && item.content_id && item.url` (JavaScript truthiness), then map to
the local `PlaylistItem` shape.  Array slots may be `null`, hence the
`Option` in the input list. -/
def transformManifest (serverPlaylist : List (Option ManifestItem)) : List PlaylistItem :=
  (serverPlaylist.filterMap (fun slot =>
    match slot with
    | none => none
    | some item =>
        if jsTruthyInt item.content_id && jsTruthyStr item.url then some item else none)).map
    (fun item =>
      { id := item.content_id.getD 0
        type := item.type
        url := item.url.getD ""
        duration_seconds := item.duration_seconds
        order := item.playlist_id.getD 0
        active := true
        checksum := item.checksum })

/-- `handleMediaEnd` in `MediaPlayer.tsx` advances the cursor by
`(prev + 1) % playlist.length`. -/
def handleMediaEndIndex (n : Nat) (i : Nat) : Nat :=
  (i + 1) % n

/-- `goToNext` in `TVBoxDisplay.tsx`: no-op on an empty list, otherwise
`(prev + 1) % content.length`. -/
def goToNext (n : Nat) (i : Nat) : Nat :=
  if n = 0 then i else (i + 1) % n

/-- `goToPrevious` in `TVBoxDisplay.tsx`: no-op on an empty list, otherwise
`(prev - 1 + content.length) % content.length` (written over `Nat` as
`(i + n - 1) % n`, which agrees with the JavaScript integer computation for
`0 ≤ i`). -/
def goToPrevious (n : Nat) (i : Nat) : Nat :=
  if n = 0 then i else (i + n - 1) % n

/-- Remote commands delivered over the device WebSocket channel. -/
inductive Command where
  | play
  | pause
  | next
  | previous
  | restart
  | powerControl (action : String)
  | unknown
  deriving DecidableEq

/-- `handleRemoteCommand` in `TVBoxDisplay.tsx`, restricted to its effect on
`currentIndex`: `next`/`previous` delegate to the wrapping helpers,
`restart` resets to 0, everything else leaves the index alone. -/
def handleRemoteCommand (n : Nat) (i : Nat) : Command → Nat
  | .next => goToNext n i
  | .previous => goToPrevious n i
  | .restart => 0
  | _ => i

/-- `handleCommand` in `MediaPlayer.tsx`, restricted to its effect on
`currentIndex`: `next` runs `handleMediaEnd`, `restart` resets to 0; there
is no `previous` case, so that command falls through to the default and
leaves the index unchanged. -/
def mediaPlayerHandleCommand (n : Nat) (i : Nat) : Command → Nat
  | .next => handleMediaEndIndex n i
  | .restart => 0
  | _ => i

theorem handleMediaEndIndex_iterate (n : Nat) (hn : 0 < n) :
    ∀ (k i : Nat), i < n →
      Nat.iterate (handleMediaEndIndex n) k i = (i + k) % n := by
  intro k
  induction k with
  | zero =>
      intro i hi
      simpa using (Nat.mod_eq_of_lt hi).symm
  | succ k ih =>
      intro i hi
      have hstep : Nat.iterate (handleMediaEndIndex n) (k + 1) i
          = Nat.iterate (handleMediaEndIndex n) k (handleMediaEndIndex n i) := rfl
      have hlt : handleMediaEndIndex n i < n := Nat.mod_lt _ hn
      rw [hstep, ih _ hlt]
      show ((i + 1) % n + k) % n = (i + (k + 1)) % n
      rw [Nat.mod_add_mod]
      ring_nf

/-- C1: with a non-empty playlist, every advance event (image timer, video
ended, or a `next` command, all of which run `handleMediaEnd` /
`goToNext`) maps index `i` to `(i + 1) % n`; the index stays in `[0, n)`,
wraps from the last index to 0, returns to its start after `n` advances,
and every index is visited within `n` advances. -/
theorem c1_cyclic_advance (n i : Nat) (hn : 0 < n) (hi : i < n) :
    handleMediaEndIndex n i = (i + 1) % n ∧
    goToNext n i = handleMediaEndIndex n i ∧
    handleMediaEndIndex n i < n ∧
    (i + 1 < n → handleMediaEndIndex n i = i + 1) ∧
    (i = n - 1 → handleMediaEndIndex n i = 0) ∧
    Nat.iterate (handleMediaEndIndex n) n i = i ∧
    (∀ j, j < n → ∃ k, k < n ∧ Nat.iterate (handleMediaEndIndex n) k i = j) := by
  refine ⟨rfl, ?_, Nat.mod_lt _ hn, ?_, ?_, ?_, ?_⟩
  · unfold goToNext handleMediaEndIndex
    simp [Nat.pos_iff_ne_zero.mp hn]
  · intro h
    exact Nat.mod_eq_of_lt h
  · intro h
    have : i + 1 = n := by omega
    simp [handleMediaEndIndex, this]
  · rw [handleMediaEndIndex_iterate n hn n i hi, Nat.add_mod_right]
    exact Nat.mod_eq_of_lt hi
  · intro j hj
    by_cases hij : i ≤ j
    · refine ⟨j - i, by omega, ?_⟩
      rw [handleMediaEndIndex_iterate n hn _ i hi]
      have : i + (j - i) = j := by omega
      rw [this]
      exact Nat.mod_eq_of_lt hj
    · refine ⟨n + j - i, by omega, ?_⟩
      rw [handleMediaEndIndex_iterate n hn _ i hi]
      have : i + (n + j - i) = n + j := by omega
      rw [this, Nat.add_mod_left]
      exact Nat.mod_eq_of_lt hj

theorem c1_cyclic_advance_witness :
    0 < 3 ∧ 2 < 3 ∧
    (handleMediaEndIndex 3 2 = (2 + 1) % 3 ∧
     goToNext 3 2 = handleMediaEndIndex 3 2 ∧
     handleMediaEndIndex 3 2 < 3 ∧
     (2 + 1 < 3 → handleMediaEndIndex 3 2 = 2 + 1) ∧
     (2 = 3 - 1 → handleMediaEndIndex 3 2 = 0) ∧
     Nat.iterate (handleMediaEndIndex 3) 3 2 = 2 ∧
     (∀ j, j < 3 → ∃ k, k < 3 ∧ Nat.iterate (handleMediaEndIndex 3) k 2 = j)) :=
  ⟨by decide, by decide, c1_cyclic_advance 3 2 (by decide) (by decide)⟩

/-- C10 counterexample: the claim says every remote command handler sends
`previous` to `(i - 1 + n) % n`, but `MediaPlayer.tsx` `handleCommand` has
no `previous` case, so at `n = 3`, `i = 2` it leaves the index at 2 while
the claimed value is `(2 - 1 + 3) % 3 = 1`. -/
theorem c10_previous_counterexample :
    mediaPlayerHandleCommand 3 2 Command.previous = 2 ∧
    (2 - 1 + 3) % 3 = 1 ∧ (2 : Nat) ≠ 1 := by
  decide

theorem handleRemoteCommand_lt (n : Nat) (hn : 0 < n) :
    ∀ (i : Nat), i < n → ∀ c, handleRemoteCommand n i c < n := by
  intro i hi c
  cases c <;>
    simp [handleRemoteCommand, goToNext, goToPrevious,
      Nat.pos_iff_ne_zero.mp hn] <;>
    first
      | exact Nat.mod_lt _ hn
      | exact hn
      | exact hi

/-- C10 (amended): in `TVBoxDisplay.tsx`, `next` maps `i` to `(i + 1) % n`,
`previous` to `(i + n - 1) % n` (wrapping from 0 to `n - 1`) and `restart`
to 0; `MediaPlayer.tsx` additionally handles `next` and `restart` the same
way but ignores `previous` (index unchanged).  Under any sequence of remote
commands both handlers keep `currentIndex` inside `[0, n)`. -/
theorem c10_commands_in_range (n i : Nat) (hn : 0 < n) (hi : i < n) :
    handleRemoteCommand n i Command.next = (i + 1) % n ∧
    handleRemoteCommand n i Command.previous = (i + n - 1) % n ∧
    (i = 0 → handleRemoteCommand n i Command.previous = n - 1) ∧
    handleRemoteCommand n i Command.restart = 0 ∧
    mediaPlayerHandleCommand n i Command.next = (i + 1) % n ∧
    mediaPlayerHandleCommand n i Command.restart = 0 ∧
    mediaPlayerHandleCommand n i Command.previous = i ∧
    (∀ c, handleRemoteCommand n i c < n) ∧
    (∀ c, mediaPlayerHandleCommand n i c < n) ∧
    (∀ cmds : List Command, cmds.foldl (handleRemoteCommand n) i < n) := by
  have hne : n ≠ 0 := Nat.pos_iff_ne_zero.mp hn
  refine ⟨by simp [handleRemoteCommand, goToNext, hne], ?_, ?_, rfl, rfl, rfl, rfl,
    handleRemoteCommand_lt n hn i hi, ?_, ?_⟩
  · simp [handleRemoteCommand, goToPrevious, hne]
  · intro h
    subst h
    simp [handleRemoteCommand, goToPrevious, hne]
  · intro c
    cases c <;>
      simp [mediaPlayerHandleCommand, handleMediaEndIndex] <;>
      first
        | exact Nat.mod_lt _ hn
        | exact hn
        | exact hi
  · intro cmds
    induction cmds generalizing i with
    | nil => simpa using hi
    | cons c rest ih =>
        exact ih _ (handleRemoteCommand_lt n hn i hi c)

theorem c10_commands_in_range_witness :
    0 < 4 ∧ 1 < 4 ∧
    (handleRemoteCommand 4 1 Command.next = (1 + 1) % 4 ∧
     handleRemoteCommand 4 1 Command.previous = (1 + 4 - 1) % 4 ∧
     (1 = 0 → handleRemoteCommand 4 1 Command.previous = 4 - 1) ∧
     handleRemoteCommand 4 1 Command.restart = 0 ∧
     mediaPlayerHandleCommand 4 1 Command.next = (1 + 1) % 4 ∧
     mediaPlayerHandleCommand 4 1 Command.restart = 0 ∧
     mediaPlayerHandleCommand 4 1 Command.previous = 1 ∧
     (∀ c, handleRemoteCommand 4 1 c < 4) ∧
     (∀ c, mediaPlayerHandleCommand 4 1 c < 4) ∧
     (∀ cmds : List Command, cmds.foldl (handleRemoteCommand 4) 1 < 4)) :=
  ⟨by decide, by decide, c10_commands_in_range 4 1 (by decide) (by decide)⟩

/-- The image timer effect of `MediaPlayer.tsx`: a `setTimeout` of
`duration_seconds * 1000` milliseconds is installed only when the current
item has `type === 'image'` and a truthy `duration_seconds` (so a missing
or zero duration installs no timer at all). -/
def imageTimerDelay (it : PlaylistItem) : Option Int :=
  match it.duration_seconds with
  | none => none
  | some d => if it.type = some "image" ∧ d ≠ 0 then some (d * 1000) else none

/-- The image branch of the per-content effect in `TVBoxDisplay.tsx`: a
`setInterval` of `(currentContent.duration || 10) * 1000` milliseconds. -/
def tvboxImageIntervalMs (duration : Option Int) : Int :=
  jsOrInt duration 10 * 1000

/-- C3 counterexample: for an image whose duration is missing or zero,
`MediaPlayer.tsx` installs no timer at all (the item is shown until some
external event advances), and for a negative duration `TVBoxDisplay.tsx`
schedules a `-5000` ms interval (an instant skip once the platform clamps
it), never the claimed 10000 ms fallback. -/
theorem c3_fallback_counterexample :
    imageTimerDelay ⟨1, some "image", "u", none, 0, true, none⟩ = none ∧
    imageTimerDelay ⟨1, some "image", "u", some 0, 0, true, none⟩ = none ∧
    imageTimerDelay ⟨1, some "image", "u", some (-5), 0, true, none⟩ = some (-5000) ∧
    tvboxImageIntervalMs (some (-5)) = -5000 ∧
    ((-5000 : Int) = 10000 → False) := by
  refine ⟨rfl, by decide, by decide, by decide, by decide⟩

/-- C3 (amended): `TVBoxDisplay.tsx` falls back to the 10 s interval only
for a missing or zero duration and uses any other value as given (so a
negative duration yields a negative, instantly-firing interval), while
`MediaPlayer.tsx` installs no timer for a missing or zero duration and a
`d * 1000` ms timeout for any other `d`, negative included. -/
theorem c3_duration_fallback (d ord idv : Int) (url : String) (act : Bool)
    (ck : Option String) :
    tvboxImageIntervalMs none = 10000 ∧
    tvboxImageIntervalMs (some 0) = 10000 ∧
    tvboxImageIntervalMs (some d) = (if d = 0 then 10 else d) * 1000 ∧
    imageTimerDelay ⟨idv, some "image", url, none, ord, act, ck⟩ = none ∧
    imageTimerDelay ⟨idv, some "image", url, some 0, ord, act, ck⟩ = none ∧
    imageTimerDelay ⟨idv, some "image", url, some d, ord, act, ck⟩ =
      (if d = 0 then none else some (d * 1000)) := by
  refine ⟨rfl, rfl, ?_, rfl, by simp [imageTimerDelay], ?_⟩
  · by_cases h : d = 0 <;> simp [tvboxImageIntervalMs, jsOrInt, h]
  · by_cases h : d = 0 <;> simp [imageTimerDelay, h]

/-- Media-element lifecycle triggers that can advance the MediaPlayer
cursor without a remote command. -/
inductive Trigger where
  | imageTimer (delayMs : Int)
  | videoEnded
  | videoError
  | imageLoadError
  deriving DecidableEq

/-- `setupVideoHandlers` in `MediaPlayer.tsx` registers exactly an `ended`
listener and an `error` listener on the current video element, both of
which call `handleMediaEnd`. -/
def setupVideoHandlers : List Trigger :=
  [Trigger.videoEnded, Trigger.videoError]

/-- The automatic advance triggers wired by `MediaPlayer.tsx` for the
current item: videos get the `ended`/`error` listeners from
`setupVideoHandlers`; other items render as images, whose `onError` calls
`handleMediaEnd`, plus the image timer when one is installed. -/
def autoAdvanceTriggers (it : PlaylistItem) : List Trigger :=
  if it.type = some "video" then setupVideoHandlers
  else
    (match imageTimerDelay it with
      | some d => [Trigger.imageTimer d]
      | none => []) ++ [Trigger.imageLoadError]

/-- C4: while a video item is current, `MediaPlayer.tsx` installs no
`displaySeconds` timer for it; its only automatic advance triggers are the
media element's `ended` and `error` events, and this trigger set does not
change when the server-supplied `duration_seconds` metadata changes, so a
video is never cut short by that metadata. -/
theorem c4_video_not_cut_short (it : PlaylistItem) (h : it.type = some "video") :
    imageTimerDelay it = none ∧
    autoAdvanceTriggers it = [Trigger.videoEnded, Trigger.videoError] ∧
    (∀ d : Option Int,
      autoAdvanceTriggers { it with duration_seconds := d } = autoAdvanceTriggers it) ∧
    (∀ d : Option Int,
      imageTimerDelay { it with duration_seconds := d } = none) := by
  refine ⟨?_, ?_, ?_, ?_⟩
  · cases hd : it.duration_seconds <;> simp [imageTimerDelay, hd, h]
  · simp [autoAdvanceTriggers, h, setupVideoHandlers]
  · intro d
    simp [autoAdvanceTriggers, h]
  · intro d
    cases d <;> simp [imageTimerDelay, h]

theorem c4_video_not_cut_short_witness :
    (⟨7, some "video", "b.mp4", some 5, 0, true, none⟩ : PlaylistItem).type = some "video" ∧
    (imageTimerDelay ⟨7, some "video", "b.mp4", some 5, 0, true, none⟩ = none ∧
     autoAdvanceTriggers ⟨7, some "video", "b.mp4", some 5, 0, true, none⟩ =
       [Trigger.videoEnded, Trigger.videoError] ∧
     (∀ d : Option Int,
       autoAdvanceTriggers { (⟨7, some "video", "b.mp4", some 5, 0, true, none⟩ : PlaylistItem) with duration_seconds := d } =
         autoAdvanceTriggers ⟨7, some "video", "b.mp4", some 5, 0, true, none⟩) ∧
     (∀ d : Option Int,
       imageTimerDelay { (⟨7, some "video", "b.mp4", some 5, 0, true, none⟩ : PlaylistItem) with duration_seconds := d } = none)) :=
  ⟨rfl, c4_video_not_cut_short ⟨7, some "video", "b.mp4", some 5, 0, true, none⟩ rfl⟩

/-- C2: the client filter in `loadPlaylist` requires a truthy
`item.content_id`, but `getDeviceManifest` emits the content id under the
key `id` and never emits a `content_id` key, so the composed pipeline drops
every item of every server manifest, well-formed items included, and the
transformed playlist is always empty. -/
theorem c2_server_items_all_dropped (baseUrl : String) (rows : List DbRow) :
    transformManifest ((serverManifest baseUrl rows).map some) = [] := by
  induction rows with
  | nil => rfl
  | cons r rest ih =>
      simp only [serverManifest, transformManifest, List.map_cons,
        List.filterMap_cons, jsTruthyInt, Bool.false_and] at ih ⊢
      exact ih

/-- Effects installed by the `MediaPlayer` component; they run on every
commit, regardless of which branch the render returned. -/
inductive MPEffect where
  | connectSocket
  | fetchPlaylist
  | preloadCurrentMedia
  | registerConnectivityHandlers
  | startImageTimer (delayMs : Int)
  deriving DecidableEq

/-- The effect list of `MediaPlayer.tsx` in hook order: the WebSocket
setup, the `loadPlaylist` fetch, `loadCurrentMedia` (which downloads /
preloads media) when the playlist is non-empty, the online/offline
listeners, and the image timer when one applies.  None of the effect
bodies reads `isBlocked`; the parameter is retained to mirror the
component's props. -/
def mediaPlayerEffects (isBlocked : Bool) (playlist : List PlaylistItem) (i : Nat) :
    List MPEffect :=
  [MPEffect.connectSocket, MPEffect.fetchPlaylist]
    ++ (if 0 < playlist.length then [MPEffect.preloadCurrentMedia] else [])
    ++ [MPEffect.registerConnectivityHandlers]
    ++ (match playlist[i]? with
        | some it =>
            match imageTimerDelay it with
            | some d => [MPEffect.startImageTimer d]
            | none => []
        | none => [])

/-- The screens `MediaPlayer.tsx` can return from its render function. -/
inductive MPScreen where
  | blockedScreen
  | loadingScreen
  | noContentScreen
  | preparingScreen
  | mediaScreen (it : PlaylistItem)
  deriving DecidableEq

/-- The render branch order of `MediaPlayer.tsx`: the blocked screen first,
then loading, then the no-content screen when an error is set and the
playlist is empty, then a preparing placeholder until both a current item
and a media url exist. -/
def mediaPlayerRender (isBlocked isLoading : Bool) (error : Option String)
    (playlist : List PlaylistItem) (i : Nat) (currentMediaUrl : Option String) :
    MPScreen :=
  if isBlocked then MPScreen.blockedScreen
  else if isLoading then MPScreen.loadingScreen
  else if jsTruthyStr error ∧ playlist.length = 0 then MPScreen.noContentScreen
  else
    match playlist[i]? with
    | some it =>
        if jsTruthyStr currentMediaUrl then MPScreen.mediaScreen it
        else MPScreen.preparingScreen
    | none => MPScreen.preparingScreen

/-- Result of `initializeDevice` in `DeviceApp.tsx`. -/
structure DeviceInit where
  deviceId : Option Int
  isBlocked : Bool
  storageCleared : Bool
  deriving DecidableEq

/-- `initializeDevice` in `DeviceApp.tsx`: with stored credentials it probes
the manifest endpoint; success keeps the device, 404 and other errors clear
the stored identity, and 403 marks the device blocked while keeping its id
(`manifestStatus = none` encodes a successful probe). -/
def initializeDevice (hasStoredCredential : Bool) (storedDeviceId : Int)
    (manifestStatus : Option Nat) : DeviceInit :=
  if hasStoredCredential = false then ⟨none, false, false⟩
  else
    match manifestStatus with
    | none => ⟨some storedDeviceId, false, false⟩
    | some s =>
        if s = 404 then ⟨none, false, true⟩
        else if s = 403 then ⟨some storedDeviceId, true, false⟩
        else ⟨none, false, true⟩

/-- C5 counterexample: with `isBlocked = true` and a one-item playlist, the
`MediaPlayer` effect list still contains the playlist fetch and the media
preload (the effects are not gated on the blocked flag), even though the
render shows the blocked screen — refuting the claim that a blocked device
issues no playlist or media fetches. -/
theorem c5_blocked_still_fetches_counterexample :
    MPEffect.fetchPlaylist ∈
      mediaPlayerEffects true [⟨1, some "image", "u", some 5, 0, true, none⟩] 0 ∧
    MPEffect.preloadCurrentMedia ∈
      mediaPlayerEffects true [⟨1, some "image", "u", some 5, 0, true, none⟩] 0 ∧
    mediaPlayerRender true false none [⟨1, some "image", "u", some 5, 0, true, none⟩] 0
      (some "blob:x") = MPScreen.blockedScreen := by
  decide

/-- C5 (amended): while blocked the player renders the blocked screen and
never a media element, and `DeviceApp` marks a device blocked on a 403
manifest probe; however the fetch/preload effects are not gated on the
blocked flag — the effect list is identical with and without the block and
always contains the playlist fetch. -/
theorem c5_blocked_render_ungated_effects (isLoading : Bool) (error : Option String)
    (playlist : List PlaylistItem) (i : Nat) (url : Option String) (did : Int) :
    mediaPlayerRender true isLoading error playlist i url = MPScreen.blockedScreen ∧
    mediaPlayerEffects true playlist i = mediaPlayerEffects false playlist i ∧
    MPEffect.fetchPlaylist ∈ mediaPlayerEffects true playlist i ∧
    (initializeDevice true did (some 403)).isBlocked = true ∧
    (initializeDevice true did (some 403)).deviceId = some did := by
  refine ⟨rfl, rfl, ?_, rfl, rfl⟩
  simp [mediaPlayerEffects]

/-- The three observable outputs of one `loadPlaylist` run in
`MediaPlayer.tsx`: the component playlist state, the playlist persisted in
device storage, and the error banner. -/
structure LoadPlaylistResult where
  statePlaylist : List PlaylistItem
  storedPlaylist : List PlaylistItem
  errorMsg : Option String
  deriving DecidableEq

/-- `loadPlaylist` in `MediaPlayer.tsx` as a pure function of the
connectivity flag, the fetch outcome, the previously persisted playlist and
the previous component state: a successful online fetch transforms and
persists the server playlist; a failed fetch falls back to the persisted
copy when non-empty (and leaves the persisted copy untouched); offline mode
reads the persisted copy. -/
def loadPlaylist (isOnline : Bool)
    (fetchResult : Except String (List (Option ManifestItem)))
    (stored statePlaylist : List PlaylistItem) : LoadPlaylistResult :=
  if isOnline then
    match fetchResult with
    | .ok serverPlaylist =>
        let transformed := transformManifest serverPlaylist
        ⟨transformed, transformed, none⟩
    | .error _ =>
        if 0 < stored.length then
          ⟨stored, stored, some "Usando playlist em cache (offline)"⟩
        else
          ⟨statePlaylist, stored, some "Nenhum conteudo disponivel"⟩
  else ⟨stored, stored, none⟩

/-- C8: a failed manifest fetch never clears a previously persisted
non-empty playlist — the component keeps playing from the persisted copy,
the persisted copy itself is unchanged (only an error banner is set), and
the offline path equally preserves it. -/
theorem c8_fetch_failure_keeps_cache (stored statePlaylist : List PlaylistItem)
    (msg : String) (h : 0 < stored.length) :
    (loadPlaylist true (.error msg) stored statePlaylist).statePlaylist = stored ∧
    (loadPlaylist true (.error msg) stored statePlaylist).storedPlaylist = stored ∧
    (loadPlaylist true (.error msg) stored statePlaylist).errorMsg.isSome = true ∧
    (loadPlaylist false (.error msg) stored statePlaylist).storedPlaylist = stored := by
  simp [loadPlaylist, h]

theorem c8_fetch_failure_keeps_cache_witness :
    0 < ([⟨1, some "image", "u", some 5, 0, true, none⟩] : List PlaylistItem).length ∧
    ((loadPlaylist true (.error "net") [⟨1, some "image", "u", some 5, 0, true, none⟩] []).statePlaylist =
        [⟨1, some "image", "u", some 5, 0, true, none⟩] ∧
     (loadPlaylist true (.error "net") [⟨1, some "image", "u", some 5, 0, true, none⟩] []).storedPlaylist =
        [⟨1, some "image", "u", some 5, 0, true, none⟩] ∧
     (loadPlaylist true (.error "net") [⟨1, some "image", "u", some 5, 0, true, none⟩] []).errorMsg.isSome = true ∧
     (loadPlaylist false (.error "net") [⟨1, some "image", "u", some 5, 0, true, none⟩] []).storedPlaylist =
        [⟨1, some "image", "u", some 5, 0, true, none⟩]) :=
  ⟨by decide,
    c8_fetch_failure_keeps_cache [⟨1, some "image", "u", some 5, 0, true, none⟩] [] "net" (by decide)⟩

/-- One selectable rendition of a video, from `TVBoxDisplay.tsx`. -/
structure VideoFormat where
  quality : String
  url : String
  size : Option Int
  extension : String
  deriving DecidableEq

/-- `ContentItem` as produced by the device-files query in
`TVBoxDisplay.tsx`. -/
structure ContentItem where
  id : String
  title : String
  file_path : String
  categoria : String
  type : String
  duration : Option Int
  formats : Option (List VideoFormat)
  thumbnail : Option String
  description : Option String
  tags : Option (List String)
  deriving DecidableEq

/-- `Announcement` rows fetched for the device in `TVBoxDisplay.tsx`. -/
structure Announcement where
  id : String
  device_id : Int
  title : String
  content : String
  background_color : Option String
  text_color : Option String
  font_size : Option Int
  display_duration : Int
  is_active : Bool
  order_index : Int
  created_at : String
  updated_at : String
  deriving DecidableEq

/-- The scheduler state mutated by the auto-advance interval of
`TVBoxDisplay.tsx`. -/
structure TVBoxState where
  showingAnnouncement : Bool
  currentAnnouncementIndex : Nat
  currentIndex : Nat
  deriving DecidableEq

/-- One firing of the auto-advance interval in `TVBoxDisplay.tsx`.  The
boolean `r` is the outcome of `Math.random() < 0.3` drawn inside the
callback: while content is showing and announcements exist, `r` decides
whether to switch to announcements or to advance the content index. -/
def tvboxTick (contentLen annLen : Nat) (r : Bool) (s : TVBoxState) : TVBoxState :=
  if s.showingAnnouncement then
    if s.currentAnnouncementIndex < annLen - 1 then
      { s with currentAnnouncementIndex := s.currentAnnouncementIndex + 1 }
    else
      let s2 : TVBoxState :=
        { s with showingAnnouncement := false, currentAnnouncementIndex := 0 }
      if 0 < contentLen then { s2 with currentIndex := (s2.currentIndex + 1) % contentLen }
      else s2
  else
    if 0 < annLen ∧ r then
      { s with showingAnnouncement := true, currentAnnouncementIndex := 0 }
    else if 0 < contentLen then { s with currentIndex := (s.currentIndex + 1) % contentLen }
    else s

/-- What the `TVBoxDisplay.tsx` render shows for a given state: the current
announcement while `showingAnnouncement` is set and announcements exist,
otherwise the current content item, otherwise nothing. -/
def tvboxDisplayed (content : List ContentItem) (anns : List Announcement)
    (s : TVBoxState) : Option (ContentItem ⊕ Announcement) :=
  if s.showingAnnouncement ∧ 0 < anns.length then
    (anns[s.currentAnnouncementIndex]?).map Sum.inr
  else if 0 < content.length then (content[s.currentIndex]?).map Sum.inl
  else none

/-- A two-item content list used to exhibit the random-draw dependence. -/
def c9content : List ContentItem :=
  [⟨"c0", "t0", "p0", "media", "image", some 5, none, none, none, none⟩,
   ⟨"c1", "t1", "p1", "media", "image", some 5, none, none, none, none⟩]

/-- A one-element announcement list used to exhibit the random-draw
dependence. -/
def c9anns : List Announcement :=
  [⟨"a0", 1, "hello", "body", none, none, none, 5, true, 0, "", ""⟩]

/-- C9 counterexample: with the same two-item content list, the same
one-announcement list and the same single timer firing, the draw
`Math.random() < 0.3 = true` shows the announcement while `false` shows
content item 1 — two runs with identical manifests, announcements and event
sequences display different items, refuting the claimed determinism. -/
theorem c9_random_draw_counterexample :
    tvboxTick 2 1 true ⟨false, 0, 0⟩ ≠ tvboxTick 2 1 false ⟨false, 0, 0⟩ ∧
    tvboxDisplayed c9content c9anns (tvboxTick 2 1 true ⟨false, 0, 0⟩) ≠
      tvboxDisplayed c9content c9anns (tvboxTick 2 1 false ⟨false, 0, 0⟩) := by
  decide

/-- C9 (amended): the `TVBoxDisplay.tsx` advance step is a pure function of
the state, the list lengths and the announcement draw, but it genuinely
depends on the draw: the next state is independent of the draw exactly when
an announcement is already showing or there are no announcements; whenever
content is showing and announcements exist, the two draw outcomes produce
different states. -/
theorem c9_draw_dependence_characterization (cl al : Nat) (s : TVBoxState) :
    tvboxTick cl al true s = tvboxTick cl al false s ↔
      (s.showingAnnouncement = true ∨ al = 0) := by
  cases s with
  | mk sa ai ci =>
      cases sa with
      | true => simp [tvboxTick]
      | false =>
          by_cases hal : al = 0
          · subst hal
            simp [tvboxTick]
          · have hpos : 0 < al := Nat.pos_of_ne_zero hal
            by_cases hcl : 0 < cl <;>
              simp [tvboxTick, hpos, hal, hcl, TVBoxState.mk.injEq]

/-- Optional metadata stored with a cached video in
`services/videoCache.ts`. -/
structure CacheMetadata where
  quality : Option String
  size : Option Int
  format : Option String
  preloaded : Option Bool
  deriving DecidableEq

/-- A `CachedVideo` record from `services/videoCache.ts`. -/
structure CachedVideo where
  id : String
  url : String
  cachedAt : Nat
  metadata : Option CacheMetadata
  deriving DecidableEq

/-- The `MAX_CACHE_SIZE` policy constant of `VideoCache`. -/
def MAX_CACHE_SIZE : Nat := 50

/-- JavaScript `Map.set` semantics on an insertion-ordered association
list: setting an existing key updates the value in place (the key keeps its
position in iteration order); a new key is appended at the end. -/
def mapSet (m : List (String × CachedVideo)) (k : String) (v : CachedVideo) :
    List (String × CachedVideo) :=
  if m.any (fun p => p.1 == k) then
    m.map (fun p => if p.1 == k then (k, v) else p)
  else m ++ [(k, v)]

/-- `VideoCache.cacheVideo`: when the map already holds `MAX_CACHE_SIZE`
entries it takes `oldestKey = keys().next().value` (the first key in
iteration order) and deletes its entry — but only behind the JavaScript
truthiness guard `if (oldestKey)`, so an empty-string first key (or an
empty map, where the iterator yields `undefined`) skips the eviction; it
then `Map.set`s the new record with `cachedAt = Date.now()`. -/
def cacheVideo (m : List (String × CachedVideo)) (id url : String)
    (meta : Option CacheMetadata) (now : Nat) : List (String × CachedVideo) :=
  let m1 :=
    if MAX_CACHE_SIZE ≤ m.length then
      match m.head? with
      | some p => if p.1 != "" then m.tail else m
      | none => m
    else m
  mapSet m1 id ⟨id, url, now, meta⟩

theorem mapSet_length_le (m : List (String × CachedVideo)) (k : String)
    (v : CachedVideo) : (mapSet m k v).length ≤ m.length + 1 := by
  unfold mapSet
  split
  · simp
  · simp

theorem mem_mapSet (m : List (String × CachedVideo)) (k : String) (v : CachedVideo)
    (p : String × CachedVideo) (hp : p ∈ mapSet m k v) : p.1 = k ∨ p ∈ m := by
  unfold mapSet at hp
  split at hp
  · obtain ⟨q, hq, hfq⟩ := List.mem_map.mp hp
    by_cases hqk : q.1 == k
    · left
      simp [hqk] at hfq
      simp [← hfq]
    · right
      simp [hqk] at hfq
      simpa [← hfq] using hq
  · rcases List.mem_append.mp hp with h | h
    · right; exact h
    · left
      simp at h
      simp [h]

theorem mapSet_mem_self (m : List (String × CachedVideo)) (k : String)
    (v : CachedVideo) : (k, v) ∈ mapSet m k v := by
  unfold mapSet
  split
  · next hany =>
      obtain ⟨q, hq, hqk⟩ := List.any_eq_true.mp hany
      exact List.mem_map.mpr ⟨q, hq, by simp [hqk]⟩
  · simp

theorem cacheVideo_length_le (m : List (String × CachedVideo)) (id url : String)
    (meta : Option CacheMetadata) (now : Nat) (h : m.length ≤ MAX_CACHE_SIZE)
    (hkeys : ∀ p ∈ m, p.1 ≠ "") :
    (cacheVideo m id url meta now).length ≤ MAX_CACHE_SIZE := by
  cases m with
  | nil => simp [cacheVideo, mapSet, MAX_CACHE_SIZE]
  | cons q t =>
      have hq : (q.1 != "") = true := by
        simpa using hkeys q (List.mem_cons_self q t)
      have hM : MAX_CACHE_SIZE = 50 := rfl
      unfold cacheVideo
      simp only [List.head?_cons, List.tail_cons, hq, if_true]
      by_cases hfull : MAX_CACHE_SIZE ≤ (q :: t).length
      · have h1 := mapSet_length_le t id ⟨id, url, now, meta⟩
        simp only [hfull, if_true]
        simp only [List.length_cons] at h hfull
        omega
      · have h1 := mapSet_length_le (q :: t) id ⟨id, url, now, meta⟩
        simp only [hfull, if_false]
        simp only [List.length_cons] at h1 hfull
        omega

theorem cacheVideo_keys (m : List (String × CachedVideo)) (id url : String)
    (meta : Option CacheMetadata) (now : Nat)
    (hkeys : ∀ p ∈ m, p.1 ≠ "") (hid : id ≠ "") :
    ∀ p ∈ cacheVideo m id url meta now, p.1 ≠ "" := by
  intro p hp
  unfold cacheVideo at hp
  rcases mem_mapSet _ _ _ _ hp with h | h
  · rw [h]; exact hid
  · have hsub : p ∈ m := by
      split at h
      · split at h
        · split at h
          · exact List.mem_of_mem_tail h
          · exact h
        · exact h
      · exact h
    exact hkeys p hsub

theorem cacheVideo_fold_bounded :
    ∀ (ops : List (String × String × Option CacheMetadata × Nat)),
      (∀ op ∈ ops, op.1 ≠ "") →
      ∀ (m : List (String × CachedVideo)), (∀ p ∈ m, p.1 ≠ "") →
        m.length ≤ MAX_CACHE_SIZE →
        (ops.foldl (fun acc op => cacheVideo acc op.1 op.2.1 op.2.2.1 op.2.2.2)
          m).length ≤ MAX_CACHE_SIZE := by
  intro ops
  induction ops with
  | nil =>
      intro _ m _ hm
      simpa using hm
  | cons op rest ih =>
      intro hops m hkeys hm
      have hop : op.1 ≠ "" := hops op (List.mem_cons_self op rest)
      have hrest : ∀ o ∈ rest, o.1 ≠ "" := fun o ho => hops o (List.mem_cons_of_mem op ho)
      simp only [List.foldl_cons]
      exact ih hrest _
        (cacheVideo_keys m op.1 op.2.1 op.2.2.1 op.2.2.2 hkeys hop)
        (cacheVideo_length_le m op.1 op.2.1 op.2.2.1 op.2.2.2 hm hkeys)

/-- C7 (amended): under any sequence of insertions whose keys are
non-empty strings the `VideoCache` map never exceeds
`MAX_CACHE_SIZE = 50` entries, and an insertion at capacity whose first
insertion-order key is non-empty (the only case in which the
`if (oldestKey)` guard lets the eviction run) evicts the entry of exactly
that *first key in Map insertion order* — not necessarily the oldest
`cachedAt`: the head entry `(k, v)` is present before and absent
afterwards, while the freshly inserted record is present.  (With an
empty-string head key at capacity the eviction is skipped and the map
grows past the bound; see the counterexample run.) -/
theorem c7_bounded_head_eviction (m : List (String × CachedVideo))
    (id url : String) (meta : Option CacheMetadata) (now : Nat)
    (k : String) (v : CachedVideo)
    (hm : m.length ≤ MAX_CACHE_SIZE)
    (hfull : MAX_CACHE_SIZE ≤ m.length)
    (hhead : m.head? = some (k, v))
    (hkne : k ≠ "")
    (hk : k ≠ id)
    (htail : ∀ p ∈ m.tail, p.1 ≠ k) :
    (k, v) ∈ m ∧
    (cacheVideo m id url meta now).length ≤ MAX_CACHE_SIZE ∧
    (∀ p ∈ cacheVideo m id url meta now, p.1 ≠ k) ∧
    (id, ⟨id, url, now, meta⟩) ∈ cacheVideo m id url meta now ∧
    (∀ ops : List (String × String × Option CacheMetadata × Nat),
      (∀ op ∈ ops, op.1 ≠ "") →
      (ops.foldl (fun acc op => cacheVideo acc op.1 op.2.1 op.2.2.1 op.2.2.2)
        []).length ≤ MAX_CACHE_SIZE) := by
  have hkb : (k != "") = true := by simpa using hkne
  have hrw : cacheVideo m id url meta now = mapSet m.tail id ⟨id, url, now, meta⟩ := by
    unfold cacheVideo
    rw [hhead]
    simp [hfull, hkb]
  have hlen : (cacheVideo m id url meta now).length ≤ MAX_CACHE_SIZE := by
    rw [hrw]
    have h1 := mapSet_length_le m.tail id ⟨id, url, now, meta⟩
    have h2 : m.tail.length = m.length - 1 := List.length_tail m
    have hM : MAX_CACHE_SIZE = 50 := rfl
    omega
  refine ⟨List.mem_of_mem_head? hhead, hlen, ?_, ?_, ?_⟩
  · intro p hp
    rw [hrw] at hp
    rcases mem_mapSet _ _ _ _ hp with h | h
    · rw [h]
      exact fun hc => hk hc.symm
    · exact htail p h
  · rw [hrw]
    exact mapSet_mem_self _ _ _
  · intro ops hops
    exact cacheVideo_fold_bounded ops hops [] (by simp) (by simp)

/-- Fifty insertions with distinct keys `"0"` … `"49"` at times 0 … 49,
filling the video cache to capacity. -/
def c7run0 : List (String × CachedVideo) :=
  (List.range 50).foldl (fun m n => cacheVideo m (toString n) "u" none n) []

/-- Re-caching the existing key `"1"` at time 100: at capacity this evicts
the head key `"0"` and then updates `"1"` in place, leaving `"1"` at the
head of iteration order with a fresh `cachedAt`. -/
def c7run1 : List (String × CachedVideo) :=
  cacheVideo c7run0 "1" "u" none 100

/-- Inserting the new key `"50"` at time 101 brings the cache back to
capacity. -/
def c7run2 : List (String × CachedVideo) :=
  cacheVideo c7run1 "50" "u" none 101

/-- Inserting the new key `"51"` at time 102 while at capacity. -/
def c7run3 : List (String × CachedVideo) :=
  cacheVideo c7run2 "51" "u" none 102

/-- An empty-string key inserted first, followed by 49 distinct non-empty
keys `"k0"` … `"k48"`: the cache reaches capacity with `""` as the first
key in Map insertion order. -/
def c7grow0 : List (String × CachedVideo) :=
  (List.range 49).foldl
    (fun m n => cacheVideo m ("k" ++ toString n) "u" none (n + 1))
    (cacheVideo [] "" "u" none 0)

/-- One more insertion at capacity: `keys().next().value` is `""`, which is
falsy, so the `if (oldestKey)` guard skips the eviction and `Map.set`
appends the new key. -/
def c7grow1 : List (String × CachedVideo) :=
  cacheVideo c7grow0 "k49" "u" none 100

set_option maxRecDepth 100000 in
/-- C7 counterexample: both conjuncts of the claim fail.  At capacity, the
insertion of `"51"` evicts the entry `"1"` whose `cachedAt` is 100 even
though entry `"2"` with the far older `cachedAt = 2` is still present
afterwards — the evicted entry is the first in Map insertion order, not the
one with the oldest `cachedAt`.  And when the first insertion-order key is
the empty string, the `if (oldestKey)` truthiness guard skips eviction
altogether, so an insertion at capacity grows the cache to 51 entries,
beyond `MAX_CACHE_SIZE`. -/
theorem c7_oldest_eviction_counterexample :
    c7run2.length = MAX_CACHE_SIZE ∧
    (c7run2.lookup "1").map CachedVideo.cachedAt = some 100 ∧
    (c7run2.lookup "2").map CachedVideo.cachedAt = some 2 ∧
    c7run3.lookup "1" = none ∧
    (c7run3.lookup "2").map CachedVideo.cachedAt = some 2 ∧
    c7grow0.length = MAX_CACHE_SIZE ∧
    c7grow0.head? = some ("", ⟨"", "u", 0, none⟩) ∧
    c7grow1.length = MAX_CACHE_SIZE + 1 := by
  decide

set_option maxRecDepth 100000 in
theorem c7_bounded_head_eviction_witness :
    (c7run2.length ≤ MAX_CACHE_SIZE ∧ MAX_CACHE_SIZE ≤ c7run2.length ∧
      c7run2.head? = some ("1", ⟨"1", "u", 100, none⟩) ∧ ("1" : String) ≠ "" ∧
      ("1" : String) ≠ "51" ∧ (∀ p ∈ c7run2.tail, p.1 ≠ "1")) ∧
    ((("1" : String), (⟨"1", "u", 100, none⟩ : CachedVideo)) ∈ c7run2 ∧
     (cacheVideo c7run2 "51" "u" none 102).length ≤ MAX_CACHE_SIZE ∧
     (∀ p ∈ cacheVideo c7run2 "51" "u" none 102, p.1 ≠ "1") ∧
     (("51" : String), (⟨"51", "u", 102, none⟩ : CachedVideo)) ∈
       cacheVideo c7run2 "51" "u" none 102 ∧
     (∀ ops : List (String × String × Option CacheMetadata × Nat),
       (∀ op ∈ ops, op.1 ≠ "") →
       (ops.foldl (fun acc op => cacheVideo acc op.1 op.2.1 op.2.2.1 op.2.2.2)
         []).length ≤ MAX_CACHE_SIZE)) :=
  ⟨⟨by decide, by decide, by decide, by decide, by decide, by decide⟩,
   c7_bounded_head_eviction c7run2 "51" "u" none 102 "1" ⟨"1", "u", 100, none⟩
     (by decide) (by decide) (by decide) (by decide) (by decide) (by decide)⟩

/-- Modelled from the spec: one entry of the `deviceStorage` media cache
(`src/utils/deviceStorage` is imported by `MediaPlayer.tsx` but absent from
the repository); §3 CacheEntry: a content identifier, the digest of the
stored bytes, and the bytes themselves. -/
structure CacheEntry where
  contentId : String
  digest : String
  bytes : List Nat
  deriving DecidableEq

/-- Modelled from the spec: the digest function of the Local Cache Store
(§4.1, "computes digest over `bytes`"); any fixed computable hash over the
byte list serves the integrity contract, here a 64-bit polynomial hash
rendered as a string. -/
def computeDigest (bytes : List Nat) : String :=
  toString (bytes.foldl (fun h b => (h * 31 + b) % (2 ^ 64)) 5381)

/-- Modelled from the spec: the Local Cache Store's capacity policy
constant (§4.1, "bounded by a maximum entry count (policy constant, e.g.,
50)"). -/
def mediaCacheCapacity : Nat := 50

/-- Modelled from the spec: insertion into the Local Cache Store — at most
one entry per contentId (replacement), evicting the least-recently-cached
(oldest-first) entry when over capacity; the list is kept oldest-first. -/
def mediaCacheInsert (store : List CacheEntry) (e : CacheEntry) : List CacheEntry :=
  let replaced := store.filter (fun x => x.contentId != e.contentId)
  let bounded := if mediaCacheCapacity ≤ replaced.length then replaced.tail else replaced
  bounded ++ [e]

/-- Modelled from the spec: `put(contentId, bytes, expectedDigest?)`
(§4.1) — computes the digest of `bytes`; if `expectedDigest` is provided
and mismatched, rejects the write with an IntegrityError and persists
nothing; otherwise persists. -/
def mediaCachePut (store : List CacheEntry) (contentId : String) (bytes : List Nat)
    (expectedDigest : Option String) : Except String (List CacheEntry) :=
  let dg := computeDigest bytes
  match expectedDigest with
  | some d =>
      if d ≠ dg then Except.error "IntegrityError"
      else Except.ok (mediaCacheInsert store ⟨contentId, dg, bytes⟩)
  | none => Except.ok (mediaCacheInsert store ⟨contentId, dg, bytes⟩)

/-- Modelled from the spec: the entry lookup backing `has` and `get`. -/
def mediaCacheFind (store : List CacheEntry) (contentId : String) : Option CacheEntry :=
  store.find? (fun x => x.contentId == contentId)

/-- Modelled from the spec: `has(contentId, expectedDigest?)` (§4.1) — true
if an entry exists and, when `expectedDigest` is given, its stored digest
matches. -/
def mediaCacheHas (store : List CacheEntry) (contentId : String)
    (expectedDigest : Option String) : Bool :=
  match mediaCacheFind store contentId with
  | none => false
  | some e =>
      match expectedDigest with
      | none => true
      | some d => e.digest == d

/-- Where `preloadMedia` in `MediaPlayer.tsx` takes the bytes from: the
cache when `deviceStorage.isCached(item.url, item.checksum)` holds,
otherwise a fresh network fetch of `item.url`. -/
inductive MediaSource where
  | fromCache
  | fromNetwork
  deriving DecidableEq

/-- The cache-versus-network decision of `preloadMedia` in
`MediaPlayer.tsx`, keyed by the item's url and checksum. -/
def preloadMediaSource (store : List CacheEntry) (it : PlaylistItem) : MediaSource :=
  if mediaCacheHas store it.url it.checksum then MediaSource.fromCache
  else MediaSource.fromNetwork

/-- C6: a `put` whose expected digest mismatches the digest computed over
the bytes is rejected with an IntegrityError and persists nothing; `has`
returns false whenever the stored entry's digest differs from the expected
one, and `preloadMedia` consequently treats such an item as needing a fresh
network fetch rather than a cache hit. -/
theorem c6_digest_verification (store : List CacheEntry) (cid : String)
    (bytes : List Nat) (d2 : String) (e : CacheEntry)
    (hmis : d2 ≠ computeDigest bytes)
    (hfind : mediaCacheFind store cid = some e)
    (hd : e.digest ≠ d2) :
    mediaCachePut store cid bytes (some d2) = Except.error "IntegrityError" ∧
    (∀ s2, mediaCachePut store cid bytes (some d2) ≠ Except.ok s2) ∧
    mediaCacheHas store cid (some d2) = false ∧
    (∀ (idv ord : Int) (tpe : Option String) (dur : Option Int) (act : Bool),
      preloadMediaSource store ⟨idv, tpe, cid, dur, ord, act, some d2⟩ =
        MediaSource.fromNetwork) := by
  have hput : mediaCachePut store cid bytes (some d2) = Except.error "IntegrityError" := by
    simp [mediaCachePut, hmis]
  have hhas : mediaCacheHas store cid (some d2) = false := by
    simp [mediaCacheHas, hfind, hd]
  refine ⟨hput, ?_, hhas, ?_⟩
  · intro s2 hcontra
    rw [hput] at hcontra
    exact Except.noConfusion hcontra
  · intro idv ord tpe dur act
    simp [preloadMediaSource, hhas]

theorem c6_digest_verification_witness :
    (("D2" : String) ≠ computeDigest [1] ∧
     mediaCacheFind [⟨"a", "D1", [0]⟩] "a" = some ⟨"a", "D1", [0]⟩ ∧
     ("D1" : String) ≠ "D2") ∧
    (mediaCachePut [⟨"a", "D1", [0]⟩] "a" [1] (some "D2") = Except.error "IntegrityError" ∧
     (∀ s2, mediaCachePut [⟨"a", "D1", [0]⟩] "a" [1] (some "D2") ≠ Except.ok s2) ∧
     mediaCacheHas [⟨"a", "D1", [0]⟩] "a" (some "D2") = false ∧
     (∀ (idv ord : Int) (tpe : Option String) (dur : Option Int) (act : Bool),
       preloadMediaSource [⟨"a", "D1", [0]⟩] ⟨idv, tpe, "a", dur, ord, act, some "D2"⟩ =
         MediaSource.fromNetwork)) :=
  ⟨⟨by decide, by decide, by decide⟩,
   c6_digest_verification [⟨"a", "D1", [0]⟩] "a" [1] "D2" ⟨"a", "D1", [0]⟩
     (by decide) (by decide) (by decide)⟩

end TVBoxZ
